import Mathlib

/-!
Shallow embedding of the voice-recorder application
(src/project/utils.py, src/project/file_manager.py,
src/project/audio_recorder.py, src/project/waveform_display.py)
together with proofs of the specification claims.

Python floats are modelled as exact rationals (every numeric literal in
the sources is exactly representable or the claims are about values where
rounding is irrelevant); Python ints are modelled as ℤ/ℕ; `int(x)`
(truncation toward zero) on an exact rational num/den is integer
truncating division; byte strings are lists of naturals below 256; the
filesystem is a partial map from path strings to file contents.
-/

namespace VoiceRec

/-- Truncation toward zero of a rational, the model of Python `int(x)`
applied to an exact rational value (`Rat.den` is always positive, and
`Int.tdiv` truncates toward zero exactly as Python `int` does). -/
def truncQ (q : ℚ) : ℤ := q.num.tdiv (q.den : ℤ)

/-- Python `a % b` for rationals with positive modulus `b`
(the sign of the result follows the divisor, i.e. floor-based). -/
def pymod (a b : ℚ) : ℚ := a - b * ⌊a / b⌋

/-- Decimal digit string of a natural number, as Python `str`/`"%d"`. -/
def natStr (n : ℕ) : String := Nat.repr n

/-- Python `f"{n:02d}"` for a natural number: zero-pad to a minimum
width of two characters. -/
def pad2 (n : ℕ) : String := if n < 10 then "0" ++ natStr n else natStr n

/-- Python `f"{n:02d}"` for an int: for negative values the sign counts
toward the minimum width, so `-5` prints as `"-5"`. -/
def intPad2 (n : ℤ) : String :=
  if 0 ≤ n then pad2 n.toNat else "-" ++ natStr (-n).toNat

/-- Python `str(n)` for an int. -/
def intStr (n : ℤ) : String :=
  if 0 ≤ n then natStr n.toNat else "-" ++ natStr (-n).toNat

/-- `minutes = int(seconds // 60)` from `format_time` (utils.py line 12):
floor division of the input by 60. -/
def ft_minutes (s : ℚ) : ℤ := ⌊s / 60⌋

/-- `seconds = seconds % 60` from `format_time` (utils.py line 13). -/
def ft_secs (s : ℚ) : ℚ := pymod s 60

/-- `tenths = int((seconds * 10) % 10)` from `format_time`
(utils.py line 14), applied to the reduced seconds. -/
def ft_tenths (s : ℚ) : ℤ := truncQ (pymod (ft_secs s * 10) 10)

/-- The minutes field of `format_time`: `f"{minutes:02d}"`. -/
def ft_minutesStr (s : ℚ) : String := intPad2 (ft_minutes s)

/-- The seconds field of `format_time`: `f"{int(seconds):02d}"`. -/
def ft_secsStr (s : ℚ) : String := intPad2 (truncQ (ft_secs s))

/-- `format_time` (utils.py lines 3-16): format seconds as `mm:ss.t`. -/
def format_time (s : ℚ) : String :=
  ft_minutesStr s ++ ":" ++ ft_secsStr s ++ "." ++ intStr (ft_tenths s)

/-! File manager (file_manager.py)

The filesystem seen by `FileManager` is a partial map from path strings
to raw byte contents. `os.path.join` is modelled with POSIX semantics.
-/

/-- A filesystem: `none` means the path does not exist. -/
def ByteFS : Type := String → Option (List ℕ)

/-- Python `s.startswith(p)` on byte strings, byte for byte. -/
def strStartsWith (s p : String) : Bool := p.data.isPrefixOf s.data

/-- Python `s.endswith(p)` on byte strings, byte for byte. -/
def strEndsWith (s p : String) : Bool := p.data.isSuffixOf s.data

/-- `os.path.join a b` (POSIX): an absolute second component discards
the first; otherwise a separator is inserted unless already present. -/
def ospath_join (a b : String) : String :=
  if strStartsWith b "/" then b
  else if a = "" then a ++ b
  else if strEndsWith a "/" then a ++ b
  else a ++ "/" ++ b

/-- Writing a file: `shutil.copy2` destination effect. -/
def fsWrite (fs : ByteFS) (p : String) (c : List ℕ) : ByteFS :=
  fun q => if q = p then some c else fs q

/-- Removing a file: `os.remove` effect. -/
def fsRemove (fs : ByteFS) (p : String) : ByteFS :=
  fun q => if q = p then none else fs q

/-- A wall-clock instant as `datetime.now()` exposes it to
`strftime("%Y%m%d_%H%M%S")`: calendar fields at second granularity. -/
structure Timestamp where
  year : ℕ
  month : ℕ
  day : ℕ
  hour : ℕ
  minute : ℕ
  second : ℕ
deriving DecidableEq

/-- The range invariants `datetime` guarantees for its fields
(`datetime.MINYEAR = 1`, `datetime.MAXYEAR = 9999`); years of interest
are four-digit, which is what `%Y` zero-pads to. -/
def ValidTimestamp (t : Timestamp) : Prop :=
  1000 ≤ t.year ∧ t.year ≤ 9999 ∧ 1 ≤ t.month ∧ t.month ≤ 12 ∧
  1 ≤ t.day ∧ t.day ≤ 31 ∧ t.hour ≤ 23 ∧ t.minute ≤ 59 ∧ t.second ≤ 59

instance (t : Timestamp) : Decidable (ValidTimestamp t) := by
  unfold ValidTimestamp
  infer_instance

/-- The two zero-padded decimal digits of `n` (`strftime` `%m`, `%d`,
`%H`, `%M`, `%S`, exact for `n ≤ 99`). -/
def two_digits (n : ℕ) : List Char :=
  [Char.ofNat (48 + n / 10 % 10), Char.ofNat (48 + n % 10)]

/-- The four zero-padded decimal digits of `n` (`strftime` `%Y`, exact
for four-digit years). -/
def four_digits (n : ℕ) : List Char :=
  [Char.ofNat (48 + n / 1000 % 10), Char.ofNat (48 + n / 100 % 10),
   Char.ofNat (48 + n / 10 % 10), Char.ofNat (48 + n % 10)]

/-- `datetime.now().strftime("%Y%m%d_%H%M%S")` (file_manager.py line 30). -/
def strftime_stamp (t : Timestamp) : String :=
  String.mk (four_digits t.year ++ two_digits t.month ++ two_digits t.day
    ++ ['_'] ++ two_digits t.hour ++ two_digits t.minute ++ two_digits t.second)

/-- The generated default filename `f"recording_{timestamp}.wav"`
(file_manager.py line 31). -/
def generatedName (t : Timestamp) : String :=
  "recording_" ++ strftime_stamp t ++ ".wav"

/-- `FileManager.get_recording_path` (file_manager.py lines 79-88). -/
def get_recording_path (recordings_dir filename : String) : String :=
  ospath_join recordings_dir filename

/-- `FileManager.save_recording` (file_manager.py lines 18-41): choose
the destination (a generated timestamp name when none or an empty string
is given), then copy the source bytes there.  `shutil.copy2` raises when
the source does not exist, modelled as `none`. -/
def save_recording (recordings_dir : String) (now : Timestamp) (fs : ByteFS)
    (source_file : String) (destination_file : Option String) :
    Option (ByteFS × String) :=
  let d := match destination_file with
    | some s => if s = "" then ospath_join recordings_dir (generatedName now) else s
    | none => ospath_join recordings_dir (generatedName now)
  match fs source_file with
  | none => none
  | some content => some (fsWrite fs d content, d)

/-- The filter of `FileManager.get_saved_recordings` (file_manager.py
lines 53-54): names ending in `.wav` whose joined path is a regular file. -/
def isWavFile (recordings_dir : String) (isFile : String → Bool) (f : String) : Bool :=
  strEndsWith f ".wav" && isFile (ospath_join recordings_dir f)

/-- `FileManager.get_saved_recordings` (file_manager.py lines 43-60):
filter the directory listing to `.wav` regular files, then stable-sort
by modification time of the joined path, newest first
(`list.sort(key=..., reverse=True)`; insertion sort is a stable sort and
so computes the same list). `names` is the `os.listdir` result, `isFile`
is `os.path.isfile` and `mtime` is `os.path.getmtime` on full paths. -/
def get_saved_recordings (recordings_dir : String) (names : List String)
    (isFile : String → Bool) (mtime : String → ℚ) : List String :=
  List.insertionSort
    (fun x y => mtime (ospath_join recordings_dir y) ≤ mtime (ospath_join recordings_dir x))
    (names.filter (isWavFile recordings_dir isFile))

/-- `FileManager.delete_recording` (file_manager.py lines 62-77): remove
the joined path if it exists and report success. -/
def delete_recording (recordings_dir : String) (fs : ByteFS) (filename : String) :
    ByteFS × Bool :=
  let p := ospath_join recordings_dir filename
  if (fs p).isSome then (fsRemove fs p, true) else (fs, false)

/-! Audio recorder (audio_recorder.py)

A chunk read from the stream is a list of signed 16-bit samples; the raw
`bytes` object is its little-endian encoding.  The wave file written by
`_save_to_temp_file` is modelled structurally: header fields plus raw
frame data, with the frame count the `wave` module computes on close
(data length divided by the frame size). -/

/-- The constant `self.chunk_size = 1024` (audio_recorder.py line 17). -/
def chunk_size : ℕ := 1024

/-- The constant `self.channels = 1` (audio_recorder.py line 19). -/
def channels : ℕ := 1

/-- The constant `self.rate = 44100` (audio_recorder.py line 20). -/
def rate : ℕ := 44100

/-- `pyaudio.get_sample_size(paInt16) = 2` bytes per sample. -/
def sample_size : ℕ := 2

/-- Little-endian two-byte encoding of a 16-bit sample, as the bytes
delivered by `stream.read` for one sample. -/
def int16Bytes (x : ℤ) : List ℕ :=
  [((x.emod 65536).toNat) % 256, ((x.emod 65536).toNat) / 256]

/-- The raw byte content of one chunk. -/
def chunkBytes (c : List ℤ) : List ℕ := (c.map int16Bytes).flatten

/-- A wave file as written through the `wave` module: the header fields
set by `_save_to_temp_file` and the raw sample data. -/
structure WavFile where
  nchannels : ℕ
  sampwidth : ℕ
  framerate : ℕ
  data : List ℕ
deriving DecidableEq

/-- The frame count the `wave` module records on close:
`len(data) // (sampwidth * nchannels)`. -/
def wavNFrames (w : WavFile) : ℕ := w.data.length / (w.nchannels * w.sampwidth)

/-- The wave file produced by `_save_to_temp_file` from the accumulated
frames (audio_recorder.py lines 81-85): mono, 16-bit, 44100 Hz, data
`b''.join(self.frames)`. -/
def wavOfFrames (frames : List (List ℤ)) : WavFile :=
  { nchannels := channels, sampwidth := sample_size, framerate := rate,
    data := (frames.map chunkBytes).flatten }

/-- Content of a file on disk as far as the recorder is concerned:
either still the empty file `tempfile.mkstemp` created, or a wave file. -/
inductive FileData where
  | emptyFile : FileData
  | wavFile (w : WavFile) : FileData
deriving DecidableEq

/-- The mutable state of an `AudioRecorder` session together with the
filesystem it writes to. -/
structure RecState where
  frames : List (List ℤ)
  temp_file : String
  fs : String → Option FileData

/-- `AudioRecorder._save_to_temp_file` (audio_recorder.py lines 75-87):
if no frames were recorded, return without touching anything; otherwise
write the joined frames as a wave file at `self.temp_file`. -/
def save_to_temp_file (st : RecState) : RecState :=
  if st.frames = [] then st
  else { st with fs := fun p =>
          if p = st.temp_file then some (FileData.wavFile (wavOfFrames st.frames))
          else st.fs p }

/-- One recording session of `AudioRecorder.start_recording`
(audio_recorder.py lines 28-69): reset `frames`, create a fresh empty
temp file, append each chunk the stream delivers until stopped, then
save to the temp file. -/
def runSession (st0 : RecState) (tmp : String) (input : List (List ℤ)) : RecState :=
  let started : RecState :=
    { frames := [], temp_file := tmp,
      fs := fun p => if p = tmp then some FileData.emptyFile else st0.fs p }
  let looped : RecState :=
    { started with frames := input.foldl (fun acc data => acc ++ [data]) [] }
  save_to_temp_file looped

/-- Total number of samples contained in a list of chunks. -/
def totalSamples (input : List (List ℤ)) : ℕ := (input.map List.length).sum

/-- Wrap an integer into the signed 16-bit range, as numpy int16
arithmetic does. -/
def int16Wrap (z : ℤ) : ℤ := (z + 32768).emod 65536 - 32768

/-- `np.abs` on an int16 value: the absolute value computed in int16,
which wraps `-32768` back to `-32768`. -/
def npAbs16 (x : ℤ) : ℤ := int16Wrap |x|

/-- The per-chunk volume `np.abs(audio_data).mean() / 32768.0`
(audio_recorder.py line 58). -/
def volumeLevel (chunk : List ℤ) : ℚ :=
  (((chunk.map npAbs16).sum : ℤ) : ℚ) / (chunk.length : ℚ) / 32768

/-! Waveform display (waveform_display.py)

Bar heights of `draw_waveform` while animating are a random walk; the
randomness is an oracle `rand : ℕ → ℤ` giving the `random.randint`
draw used for bar `i`.  `int(x * 0.8)` on exact values is modelled by
exact rational truncation. -/

/-- `int(self.height * 0.8)` (waveform_display.py line 82): the cap on a
bar height, computed on the exact rational `4 * H / 5`. -/
def heightCap (H : ℕ) : ℕ := 4 * H / 5

/-- `max(5, int(self.amplitude * 20))` (waveform_display.py line 80):
the bound on the random perturbation; `int` truncates the exact rational
`20 * a` toward zero. -/
def maxDiff (a : ℚ) : ℤ := max 5 ((20 * a.num).tdiv (a.den : ℤ))

/-- `max(2, min(int(self.height * 0.8), x))` (waveform_display.py
lines 82-83 and 86): clamp a candidate bar height to the canvas. -/
def pyClamp (H : ℕ) (x : ℤ) : ℤ := max 2 (min (heightCap H : ℤ) x)

/-- `int(self.amplitude * self.height * 0.8)` (waveform_display.py
line 85): the first bar's raw height, truncating the exact rational
`a * H * 4 / 5`. -/
def firstBarRaw (a : ℚ) (H : ℕ) : ℤ := (a.num * H * 4).tdiv (a.den * 5 : ℤ)

/-- The bar heights `self.heights[i]` computed by one animated
`draw_waveform` pass (waveform_display.py lines 78-88): the first bar
from the amplitude, each later bar from its predecessor plus the random
draw, clamped to `[2, int(height * 0.8)]`. -/
def barHeight (a : ℚ) (H : ℕ) (rand : ℕ → ℤ) : ℕ → ℤ
  | 0 => pyClamp H (firstBarRaw a H)
  | i + 1 => pyClamp H (barHeight a H rand i + rand (i + 1))

/-- The height `draw_waveform` actually draws for bar `i`
(waveform_display.py lines 61-100): the flat line of height 2 when the
animation is not running, the random walk when it is. -/
def drawnBarHeight (animating : Bool) (a : ℚ) (H : ℕ) (rand : ℕ → ℤ) (i : ℕ) : ℤ :=
  if animating then barHeight a H rand i else 2

/-- `WaveformDisplay.update_amplitude` (waveform_display.py lines
102-109): store `min(1.0, amplitude * 1.5)`. -/
def update_amplitude (amplitude : ℚ) : ℚ := min 1 (amplitude * (3 / 2))

/-- Shape of a generated recording filename: `recording_` followed by
eight digits, an underscore, six digits, and `.wav` (the pattern
`recording_YYYYMMDD_HHMMSS.wav`). -/
def matchesRecordingPattern (s : String) : Bool :=
  let l := s.data
  (l.length == 29) &&
  (l.getD 0 ' ' == 'r') && (l.getD 1 ' ' == 'e') && (l.getD 2 ' ' == 'c') &&
  (l.getD 3 ' ' == 'o') && (l.getD 4 ' ' == 'r') && (l.getD 5 ' ' == 'd') &&
  (l.getD 6 ' ' == 'i') && (l.getD 7 ' ' == 'n') && (l.getD 8 ' ' == 'g') &&
  (l.getD 9 ' ' == '_') &&
  (l.getD 10 ' ').isDigit && (l.getD 11 ' ').isDigit && (l.getD 12 ' ').isDigit &&
  (l.getD 13 ' ').isDigit && (l.getD 14 ' ').isDigit && (l.getD 15 ' ').isDigit &&
  (l.getD 16 ' ').isDigit && (l.getD 17 ' ').isDigit &&
  (l.getD 18 ' ' == '_') &&
  (l.getD 19 ' ').isDigit && (l.getD 20 ' ').isDigit && (l.getD 21 ' ').isDigit &&
  (l.getD 22 ' ').isDigit && (l.getD 23 ' ').isDigit && (l.getD 24 ' ').isDigit &&
  (l.getD 25 ' ' == '.') && (l.getD 26 ' ' == 'w') && (l.getD 27 ' ' == 'a') &&
  (l.getD 28 ' ' == 'v')

/-! Helper lemmas shared by the claim proofs. -/

theorem foldl_concat_eq (l acc : List (List ℤ)) :
    l.foldl (fun a data => a ++ [data]) acc = acc ++ l := by
  induction l generalizing acc with
  | nil => simp
  | cons c cs ih => simp [List.foldl_cons, ih]

theorem string_append_ne_empty (a b : String) (hb : b ≠ "") : a ++ b ≠ "" := by
  intro h
  apply hb
  apply String.ext
  have hd : a.data ++ b.data = [] := by
    have := congrArg String.data h
    simpa using this
  simpa using (List.append_eq_nil.mp hd).2

theorem ospath_join_ne_empty (a b : String) (hb : b ≠ "") : ospath_join a b ≠ "" := by
  unfold ospath_join
  split
  · exact hb
  · split
    · exact string_append_ne_empty a b hb
    · split
      · exact string_append_ne_empty a b hb
      · exact string_append_ne_empty (a ++ "/") b hb

theorem chunkBytes_length (c : List ℤ) : (chunkBytes c).length = 2 * c.length := by
  unfold chunkBytes
  rw [List.length_flatten, List.map_map]
  have h : (List.map (List.length ∘ int16Bytes) c) = List.map (fun _ => 2) c := by
    apply List.map_congr_left
    intro x _
    rfl
  rw [h]
  induction c with
  | nil => rfl
  | cons x xs ih => simp [ih]; omega

/-- Claim C1: a recording session fed a non-empty list of chunks of
16-bit samples and then stopped leaves, at the temporary file path, a
wave file with 1 channel, 16-bit samples, 44100 Hz, and a frame count
equal to the total number of samples in the chunks. -/
theorem save_to_temp_file_valid_wav (st0 : RecState) (tmp : String)
    (input : List (List ℤ)) (hne : input ≠ [])
    (h16 : ∀ c ∈ input, ∀ x ∈ c, -32768 ≤ x ∧ x ≤ 32767) :
    ∃ w, (runSession st0 tmp input).fs tmp = some (FileData.wavFile w) ∧
      w.nchannels = 1 ∧ w.sampwidth = 2 ∧ w.framerate = 44100 ∧
      wavNFrames w = totalSamples input := by
  refine ⟨wavOfFrames input, ?_, rfl, rfl, rfl, ?_⟩
  · simp [runSession, foldl_concat_eq, save_to_temp_file, hne]
  · unfold wavNFrames wavOfFrames totalSamples channels sample_size
    simp only
    rw [List.length_flatten, List.map_map]
    have h : (List.map (List.length ∘ chunkBytes) input) =
        List.map (fun c => 2 * c.length) input := by
      apply List.map_congr_left
      intro c _
      exact chunkBytes_length c
    rw [h]
    rw [List.sum_map_mul_left input List.length 2]
    omega

theorem save_to_temp_file_valid_wav_witness :
    ([[0, -32768], [32767]] : List (List ℤ)) ≠ [] ∧
    (∀ c ∈ ([[0, -32768], [32767]] : List (List ℤ)), ∀ x ∈ c, -32768 ≤ x ∧ x ≤ 32767) ∧
    (∃ w, (runSession ⟨[], "", fun _ => none⟩ "/tmp/rec.wav" [[0, -32768], [32767]]).fs
          "/tmp/rec.wav" = some (FileData.wavFile w) ∧
      w.nchannels = 1 ∧ w.sampwidth = 2 ∧ w.framerate = 44100 ∧
      wavNFrames w = totalSamples [[0, -32768], [32767]]) :=
  ⟨by decide, by decide,
    save_to_temp_file_valid_wav ⟨[], "", fun _ => none⟩ "/tmp/rec.wav"
      [[0, -32768], [32767]] (by decide) (by decide)⟩

/-- Claim C2: saving an existing source file to a filename in the
recordings directory succeeds, returns the resolved path
`get_recording_path`, and reading that path back yields content
byte-identical to the source. -/
theorem save_recording_roundtrip (recordings_dir : String) (now : Timestamp)
    (fs : ByteFS) (source_file filename : String) (content : List ℕ)
    (hsrc : fs source_file = some content) (hname : filename ≠ "") :
    ∃ fs2 p, save_recording recordings_dir now fs source_file
        (some (get_recording_path recordings_dir filename)) = some (fs2, p) ∧
      p = get_recording_path recordings_dir filename ∧ fs2 p = some content := by
  have hd : get_recording_path recordings_dir filename ≠ "" :=
    ospath_join_ne_empty recordings_dir filename hname
  refine ⟨fsWrite fs (get_recording_path recordings_dir filename) content,
    get_recording_path recordings_dir filename, ?_, rfl, ?_⟩
  · simp [save_recording, hsrc, hd]
  · simp [fsWrite]

theorem save_recording_roundtrip_witness :
    ((fun p => if p = "/tmp/tmpa1.wav" then some [82, 73, 70] else none) : ByteFS)
        "/tmp/tmpa1.wav" = some [82, 73, 70] ∧
    ("take1.wav" : String) ≠ "" ∧
    (∃ fs2 p, save_recording "recordings" ⟨2024, 1, 2, 3, 4, 5⟩
        (fun p => if p = "/tmp/tmpa1.wav" then some [82, 73, 70] else none)
        "/tmp/tmpa1.wav" (some (get_recording_path "recordings" "take1.wav")) =
          some (fs2, p) ∧
      p = get_recording_path "recordings" "take1.wav" ∧
      fs2 p = some [82, 73, 70]) :=
  ⟨by decide, by decide,
    save_recording_roundtrip "recordings" ⟨2024, 1, 2, 3, 4, 5⟩
      (fun p => if p = "/tmp/tmpa1.wav" then some [82, 73, 70] else none)
      "/tmp/tmpa1.wav" "take1.wav" [82, 73, 70] (by decide) (by decide)⟩

theorem truncQ_eq_floor (q : ℚ) (h : 0 ≤ q) : truncQ q = ⌊q⌋ := by
  rw [Rat.floor_def, truncQ]
  obtain ⟨m, hm⟩ := Int.eq_ofNat_of_zero_le (Rat.num_nonneg.mpr h)
  rw [hm]
  rfl

theorem pymod_eq_fract (a b : ℚ) (hb : b ≠ 0) :
    pymod a b = b * Int.fract (a / b) := by
  unfold pymod Int.fract
  field_simp

theorem pymod_nonneg (a b : ℚ) (hb : 0 < b) : 0 ≤ pymod a b := by
  rw [pymod_eq_fract a b hb.ne']
  exact mul_nonneg hb.le (Int.fract_nonneg _)

theorem pymod_lt (a b : ℚ) (hb : 0 < b) : pymod a b < b := by
  rw [pymod_eq_fract a b hb.ne']
  calc b * Int.fract (a / b) < b * 1 :=
        (mul_lt_mul_left hb).mpr (Int.fract_lt_one _)
    _ = b := mul_one b

theorem pad2_length_two : ∀ n < 100, (pad2 n).length = 2 := by decide

theorem format_time_build (s : ℚ) (m x t : ℤ) (hm : ft_minutes s = m)
    (hx : truncQ (ft_secs s) = x) (ht : ft_tenths s = t) :
    format_time s = intPad2 m ++ ":" ++ intPad2 x ++ "." ++ intStr t := by
  rw [format_time, ft_minutesStr, ft_secsStr, hm, hx, ht]

/-- Claim C3 (amended): `format_time` maps 125.34 to `"02:05.3"` and 0
to `"00:00.0"`; for every non-negative input below 6000 seconds (i.e.
while the minute count fits two digits) the minutes and seconds fields
are zero-padded to exactly two digits.  (For inputs of 6000 seconds or
more the minutes field exceeds two digits, see the counterexample.) -/
theorem format_time_fields (s : ℚ) (h0 : 0 ≤ s) (h6 : s < 6000) :
    format_time (125.34 : ℚ) = "02:05.3" ∧ format_time 0 = "00:00.0" ∧
    (ft_minutesStr s).length = 2 ∧ (ft_secsStr s).length = 2 := by
  refine ⟨?_, ?_, ?_, ?_⟩
  · have hm : ft_minutes (125.34 : ℚ) = 2 := by
      unfold ft_minutes
      norm_num
    have hsec : ft_secs (125.34 : ℚ) = 267 / 50 := by
      unfold ft_secs pymod
      norm_num
    have hx : truncQ (ft_secs (125.34 : ℚ)) = 5 := by
      rw [hsec, truncQ_eq_floor _ (by norm_num)]
      norm_num
    have ht : ft_tenths (125.34 : ℚ) = 3 := by
      unfold ft_tenths
      rw [hsec]
      have hp : pymod ((267 : ℚ) / 50 * 10) 10 = 17 / 5 := by
        unfold pymod
        norm_num
      rw [hp, truncQ_eq_floor _ (by norm_num)]
      norm_num
    rw [format_time_build _ _ _ _ hm hx ht]
    decide
  · have hm : ft_minutes (0 : ℚ) = 0 := by
      unfold ft_minutes
      norm_num
    have hsec : ft_secs (0 : ℚ) = 0 := by
      unfold ft_secs pymod
      norm_num
    have hx : truncQ (ft_secs (0 : ℚ)) = 0 := by
      rw [hsec, truncQ_eq_floor _ le_rfl]
      norm_num
    have ht : ft_tenths (0 : ℚ) = 0 := by
      unfold ft_tenths
      rw [hsec]
      have hp : pymod ((0 : ℚ) * 10) 10 = 0 := by
        unfold pymod
        norm_num
      rw [hp, truncQ_eq_floor _ le_rfl]
      norm_num
    rw [format_time_build _ _ _ _ hm hx ht]
    decide
  · -- minutes field
    have hlo : 0 ≤ ft_minutes s := Int.floor_nonneg.mpr (by positivity)
    have hhi : ft_minutes s < 100 := by
      unfold ft_minutes
      rw [Int.floor_lt]
      push_cast
      linarith
    rw [ft_minutesStr, intPad2, if_pos hlo]
    exact pad2_length_two _ (by omega)
  · -- seconds field
    have hs0 : 0 ≤ ft_secs s := pymod_nonneg s 60 (by norm_num)
    have hs1 : ft_secs s < 60 := pymod_lt s 60 (by norm_num)
    have hlo : 0 ≤ truncQ (ft_secs s) := by
      rw [truncQ_eq_floor _ hs0]
      exact Int.floor_nonneg.mpr hs0
    have hhi : truncQ (ft_secs s) < 60 := by
      rw [truncQ_eq_floor _ hs0]
      rw [Int.floor_lt]
      push_cast
      linarith
    rw [ft_secsStr, intPad2, if_pos hlo]
    exact pad2_length_two _ (by omega)

theorem format_time_fields_witness :
    (0 : ℚ) ≤ 0 ∧ (0 : ℚ) < 6000 ∧
    (format_time (125.34 : ℚ) = "02:05.3" ∧ format_time 0 = "00:00.0" ∧
      (ft_minutesStr (0 : ℚ)).length = 2 ∧ (ft_secsStr (0 : ℚ)).length = 2) :=
  ⟨by decide, by decide, format_time_fields 0 (by decide) (by decide)⟩

/-- Claim C3 counterexample: at 6000 seconds (100 minutes) the output is
`"100:00.0"`, whose minutes field has three characters: `%02d` is a
minimum width, not an exact one, so the claim as stated fails. -/
theorem format_time_minutes_field_overflow :
    format_time (6000 : ℚ) = "100:00.0" ∧ ¬ (ft_minutesStr (6000 : ℚ)).length = 2 := by
  have hm : ft_minutes (6000 : ℚ) = 100 := by
    unfold ft_minutes
    norm_num
  have hsec : ft_secs (6000 : ℚ) = 0 := by
    unfold ft_secs pymod
    norm_num
  have hx : truncQ (ft_secs (6000 : ℚ)) = 0 := by
    rw [hsec, truncQ_eq_floor _ le_rfl]
    norm_num
  have ht : ft_tenths (6000 : ℚ) = 0 := by
    unfold ft_tenths
    rw [hsec]
    have hp : pymod ((0 : ℚ) * 10) 10 = 0 := by
      unfold pymod
      norm_num
    rw [hp, truncQ_eq_floor _ le_rfl]
    norm_num
  constructor
  · rw [format_time_build _ _ _ _ hm hx ht]
    decide
  · rw [ft_minutesStr, hm]
    decide

/-- Claim C4: `get_saved_recordings` returns exactly the `.wav` regular
files of the directory listing, ordered by descending modification
time; when the modification times of those files are pairwise distinct
the order is strictly descending. -/
theorem get_saved_recordings_spec (recordings_dir : String) (names : List String)
    (isFile : String → Bool) (mtime : String → ℚ)
    (hdist : (names.filter (isWavFile recordings_dir isFile)).Pairwise
      (fun x y => mtime (ospath_join recordings_dir x) ≠
        mtime (ospath_join recordings_dir y))) :
    (get_saved_recordings recordings_dir names isFile mtime).Perm
        (names.filter (isWavFile recordings_dir isFile)) ∧
    (∀ f, f ∈ get_saved_recordings recordings_dir names isFile mtime ↔
      f ∈ names ∧ strEndsWith f ".wav" = true ∧
        isFile (ospath_join recordings_dir f) = true) ∧
    (get_saved_recordings recordings_dir names isFile mtime).Pairwise
      (fun x y => mtime (ospath_join recordings_dir y) ≤
        mtime (ospath_join recordings_dir x)) ∧
    (get_saved_recordings recordings_dir names isFile mtime).Pairwise
      (fun x y => mtime (ospath_join recordings_dir y) <
        mtime (ospath_join recordings_dir x)) := by
  have hperm : (get_saved_recordings recordings_dir names isFile mtime).Perm
      (names.filter (isWavFile recordings_dir isFile)) :=
    List.perm_insertionSort _ _
  have hsorted : (get_saved_recordings recordings_dir names isFile mtime).Pairwise
      (fun x y => mtime (ospath_join recordings_dir y) ≤
        mtime (ospath_join recordings_dir x)) := by
    haveI : IsTotal String (fun x y => mtime (ospath_join recordings_dir y) ≤
        mtime (ospath_join recordings_dir x)) := ⟨fun a b => le_total _ _⟩
    haveI : IsTrans String (fun x y => mtime (ospath_join recordings_dir y) ≤
        mtime (ospath_join recordings_dir x)) :=
      ⟨fun a b c hab hbc => le_trans hbc hab⟩
    exact List.sorted_insertionSort _ _
  have hne : (get_saved_recordings recordings_dir names isFile mtime).Pairwise
      (fun x y => mtime (ospath_join recordings_dir x) ≠
        mtime (ospath_join recordings_dir y)) :=
    (List.Perm.pairwise_iff (fun h => Ne.symm h) hperm).mpr hdist
  refine ⟨hperm, ?_, hsorted, ?_⟩
  · intro f
    rw [hperm.mem_iff, List.mem_filter, isWavFile]
    simp [Bool.and_eq_true, and_assoc]
  · exact (hsorted.and hne).imp fun h => lt_of_le_of_ne h.1 (Ne.symm h.2)

theorem get_saved_recordings_spec_witness :
    (["b.wav", "a.wav", "c.txt"].filter
        (isWavFile "recordings" (fun _ => true))).Pairwise
      (fun x y =>
        (fun p => if p = "recordings/a.wav" then (2 : ℚ) else 1)
            (ospath_join "recordings" x) ≠
        (fun p => if p = "recordings/a.wav" then (2 : ℚ) else 1)
            (ospath_join "recordings" y)) ∧
    ((get_saved_recordings "recordings" ["b.wav", "a.wav", "c.txt"] (fun _ => true)
        (fun p => if p = "recordings/a.wav" then (2 : ℚ) else 1)).Perm
      (["b.wav", "a.wav", "c.txt"].filter (isWavFile "recordings" (fun _ => true))) ∧
    (∀ f, f ∈ get_saved_recordings "recordings" ["b.wav", "a.wav", "c.txt"]
        (fun _ => true) (fun p => if p = "recordings/a.wav" then (2 : ℚ) else 1) ↔
      f ∈ ["b.wav", "a.wav", "c.txt"] ∧ strEndsWith f ".wav" = true ∧
        (fun _ => true) (ospath_join "recordings" f) = true) ∧
    (get_saved_recordings "recordings" ["b.wav", "a.wav", "c.txt"] (fun _ => true)
        (fun p => if p = "recordings/a.wav" then (2 : ℚ) else 1)).Pairwise
      (fun x y =>
        (fun p => if p = "recordings/a.wav" then (2 : ℚ) else 1)
            (ospath_join "recordings" y) ≤
        (fun p => if p = "recordings/a.wav" then (2 : ℚ) else 1)
            (ospath_join "recordings" x)) ∧
    (get_saved_recordings "recordings" ["b.wav", "a.wav", "c.txt"] (fun _ => true)
        (fun p => if p = "recordings/a.wav" then (2 : ℚ) else 1)).Pairwise
      (fun x y =>
        (fun p => if p = "recordings/a.wav" then (2 : ℚ) else 1)
            (ospath_join "recordings" y) <
        (fun p => if p = "recordings/a.wav" then (2 : ℚ) else 1)
            (ospath_join "recordings" x))) :=
  ⟨by decide, get_saved_recordings_spec "recordings" ["b.wav", "a.wav", "c.txt"]
    (fun _ => true) (fun p => if p = "recordings/a.wav" then (2 : ℚ) else 1)
    (by decide)⟩

/-- Claim C5: deleting a filename whose joined path does not exist
returns `false` and leaves the filesystem unchanged (no exception: the
model is total); deleting an existing one removes exactly that path and
returns `true`. -/
theorem delete_recording_cases (recordings_dir : String) (fs : ByteFS)
    (filename : String) :
    (fs (ospath_join recordings_dir filename) = none ∧
      delete_recording recordings_dir fs filename = (fs, false)) ∨
    (∃ c, fs (ospath_join recordings_dir filename) = some c ∧
      delete_recording recordings_dir fs filename =
        (fsRemove fs (ospath_join recordings_dir filename), true)) := by
  unfold delete_recording
  cases h : fs (ospath_join recordings_dir filename) with
  | none => exact Or.inl ⟨rfl, by simp [h]⟩
  | some c => exact Or.inr ⟨c, rfl, by simp [h]⟩

theorem char_digit_toNat (n : ℕ) :
    (Char.ofNat (48 + n % 10)).toNat = 48 + n % 10 := by
  have hlt : n % 10 < 10 := Nat.mod_lt _ (by norm_num)
  set d := n % 10 with hd
  interval_cases d <;> decide

theorem digit_char_isDigit (n : ℕ) :
    (Char.ofNat (48 + n % 10)).isDigit = true := by
  have hlt : n % 10 < 10 := Nat.mod_lt _ (by norm_num)
  set d := n % 10 with hd
  interval_cases d <;> decide

theorem char_digit_mod_inj (a b : ℕ)
    (h : Char.ofNat (48 + a % 10) = Char.ofNat (48 + b % 10)) :
    a % 10 = b % 10 := by
  have hc := congrArg Char.toNat h
  rw [char_digit_toNat a, char_digit_toNat b] at hc
  omega

theorem strftime_stamp_inj (t1 t2 : Timestamp)
    (h1 : ValidTimestamp t1) (h2 : ValidTimestamp t2)
    (h : strftime_stamp t1 = strftime_stamp t2) : t1 = t2 := by
  obtain ⟨y1, mo1, d1, hh1, mi1, se1⟩ := t1
  obtain ⟨y2, mo2, d2, hh2, mi2, se2⟩ := t2
  unfold ValidTimestamp at h1 h2
  simp only at h1 h2
  have hl : four_digits y1 ++ two_digits mo1 ++ two_digits d1 ++ ['_'] ++
      two_digits hh1 ++ two_digits mi1 ++ two_digits se1 =
      four_digits y2 ++ two_digits mo2 ++ two_digits d2 ++ ['_'] ++
      two_digits hh2 ++ two_digits mi2 ++ two_digits se2 :=
    congrArg String.data h
  simp only [four_digits, two_digits, List.cons_append, List.nil_append,
    List.cons.injEq, and_true] at hl
  obtain ⟨e1, e2, e3, e4, e5, e6, e7, e8, -, e9, e10, e11, e12, e13, e14⟩ := hl
  have g1 := char_digit_mod_inj _ _ e1
  have g2 := char_digit_mod_inj _ _ e2
  have g3 := char_digit_mod_inj _ _ e3
  have g4 := char_digit_mod_inj _ _ e4
  have g5 := char_digit_mod_inj _ _ e5
  have g6 := char_digit_mod_inj _ _ e6
  have g7 := char_digit_mod_inj _ _ e7
  have g8 := char_digit_mod_inj _ _ e8
  have g9 := char_digit_mod_inj _ _ e9
  have g10 := char_digit_mod_inj _ _ e10
  have g11 := char_digit_mod_inj _ _ e11
  have g12 := char_digit_mod_inj _ _ e12
  have g13 := char_digit_mod_inj _ _ e13
  have g14 := char_digit_mod_inj _ _ e14
  simp only [Timestamp.mk.injEq]
  refine ⟨?_, ?_, ?_, ?_, ?_, ?_⟩ <;> omega

theorem generatedName_inj (t1 t2 : Timestamp)
    (h1 : ValidTimestamp t1) (h2 : ValidTimestamp t2)
    (h : generatedName t1 = generatedName t2) : t1 = t2 := by
  apply strftime_stamp_inj t1 t2 h1 h2
  apply String.ext
  have hd : ("recording_".data ++ (strftime_stamp t1).data) ++ ".wav".data =
      ("recording_".data ++ (strftime_stamp t2).data) ++ ".wav".data := by
    have := congrArg String.data h
    simpa [generatedName] using this
  exact List.append_cancel_left (List.append_cancel_right hd)

theorem generatedName_matches (t : Timestamp) (h : ValidTimestamp t) :
    matchesRecordingPattern (generatedName t) = true := by
  obtain ⟨y, mo, d, hh, mi, se⟩ := t
  have hdata : (generatedName ⟨y, mo, d, hh, mi, se⟩).data =
      'r' :: 'e' :: 'c' :: 'o' :: 'r' :: 'd' :: 'i' :: 'n' :: 'g' :: '_' ::
      Char.ofNat (48 + y / 1000 % 10) :: Char.ofNat (48 + y / 100 % 10) ::
      Char.ofNat (48 + y / 10 % 10) :: Char.ofNat (48 + y % 10) ::
      Char.ofNat (48 + mo / 10 % 10) :: Char.ofNat (48 + mo % 10) ::
      Char.ofNat (48 + d / 10 % 10) :: Char.ofNat (48 + d % 10) ::
      '_' ::
      Char.ofNat (48 + hh / 10 % 10) :: Char.ofNat (48 + hh % 10) ::
      Char.ofNat (48 + mi / 10 % 10) :: Char.ofNat (48 + mi % 10) ::
      Char.ofNat (48 + se / 10 % 10) :: Char.ofNat (48 + se % 10) ::
      '.' :: 'w' :: 'a' :: 'v' :: [] := rfl
  simp only [matchesRecordingPattern, hdata, List.getD, List.get?, List.length]
  simp [digit_char_isDigit]

/-- Claim C6: a call to `save_recording` with no destination copies the
source to the filename `recording_YYYYMMDD_HHMMSS.wav` generated from
the current time, that filename matches the timestamp pattern, and two
calls at different wall-clock seconds generate distinct filenames. -/
theorem save_recording_generated_name (recordings_dir : String) (fs : ByteFS)
    (source_file : String) (content : List ℕ) (t1 t2 : Timestamp)
    (hsrc : fs source_file = some content)
    (h1 : ValidTimestamp t1) (h2 : ValidTimestamp t2) (hne : t1 ≠ t2) :
    save_recording recordings_dir t1 fs source_file none =
      some (fsWrite fs (ospath_join recordings_dir (generatedName t1)) content,
        ospath_join recordings_dir (generatedName t1)) ∧
    matchesRecordingPattern (generatedName t1) = true ∧
    generatedName t1 ≠ generatedName t2 :=
  ⟨by simp [save_recording, hsrc], generatedName_matches t1 h1,
    fun h => hne (generatedName_inj t1 t2 h1 h2 h)⟩

theorem save_recording_generated_name_witness :
    ((fun p => if p = "/tmp/tmpa2.wav" then some [1, 2] else none) : ByteFS)
        "/tmp/tmpa2.wav" = some [1, 2] ∧
    ValidTimestamp ⟨2024, 1, 2, 3, 4, 5⟩ ∧ ValidTimestamp ⟨2024, 1, 2, 3, 4, 6⟩ ∧
    (⟨2024, 1, 2, 3, 4, 5⟩ : Timestamp) ≠ ⟨2024, 1, 2, 3, 4, 6⟩ ∧
    (save_recording "recordings"  ⟨2024, 1, 2, 3, 4, 5⟩
        (fun p => if p = "/tmp/tmpa2.wav" then some [1, 2] else none)
        "/tmp/tmpa2.wav" none =
      some (fsWrite (fun p => if p = "/tmp/tmpa2.wav" then some [1, 2] else none)
          (ospath_join "recordings" (generatedName ⟨2024, 1, 2, 3, 4, 5⟩)) [1, 2],
        ospath_join "recordings" (generatedName ⟨2024, 1, 2, 3, 4, 5⟩)) ∧
    matchesRecordingPattern (generatedName ⟨2024, 1, 2, 3, 4, 5⟩) = true ∧
    generatedName ⟨2024, 1, 2, 3, 4, 5⟩ ≠ generatedName ⟨2024, 1, 2, 3, 4, 6⟩) :=
  ⟨by decide, by decide, by decide, by decide,
    save_recording_generated_name "recordings"
      (fun p => if p = "/tmp/tmpa2.wav" then some [1, 2] else none)
      "/tmp/tmpa2.wav" [1, 2] ⟨2024, 1, 2, 3, 4, 5⟩ ⟨2024, 1, 2, 3, 4, 6⟩
      (by decide) (by decide) (by decide) (by decide)⟩

/-- Claim C7 (failing input): on the chunk consisting of the single
sample -32768, the volume passed to the callback is -1, outside the
claimed range 0 to 1: `np.abs` on int16 wraps -32768 to -32768. -/
theorem volumeLevel_negative_at_full_scale :
    volumeLevel [(-32768 : ℤ)] = -1 ∧ ¬ (0 ≤ volumeLevel [(-32768 : ℤ)]) := by
  have h : volumeLevel [(-32768 : ℤ)] = -1 := by
    unfold volumeLevel npAbs16 int16Wrap
    norm_num
  refine ⟨h, ?_⟩
  rw [h]
  norm_num

theorem tdiv_cast_le (n : ℤ) (d : ℕ) (hn : 0 ≤ n) (hd : 0 < d) :
    ((n.tdiv (d : ℤ) : ℤ) : ℚ) ≤ (n : ℚ) / (d : ℚ) := by
  obtain ⟨m, rfl⟩ := Int.eq_ofNat_of_zero_le hn
  rw [le_div_iff₀ (by exact_mod_cast hd)]
  have h : ((m : ℤ)).tdiv ((d : ℤ)) = ((m / d : ℕ) : ℤ) := rfl
  rw [h]
  have hmd := Nat.div_mul_le_self m d
  exact_mod_cast hmd

theorem maxDiff_le (a : ℚ) (ha : 0 ≤ a) : ((maxDiff a : ℤ) : ℚ) ≤ max 5 (a * 20) := by
  unfold maxDiff
  rw [Int.cast_max]
  apply max_le_max (by norm_num)
  have hnum : (0 : ℤ) ≤ 20 * a.num :=
    mul_nonneg (by norm_num) (Rat.num_nonneg.mpr ha)
  calc (((20 * a.num).tdiv (a.den : ℤ) : ℤ) : ℚ)
      ≤ ((20 * a.num : ℤ) : ℚ) / ((a.den : ℕ) : ℚ) := tdiv_cast_le _ _ hnum a.den_pos
    _ = a * 20 := by
        push_cast
        conv_rhs => rw [← Rat.num_div_den a]
        ring

theorem heightCap_ge_two (H : ℕ) (h : 3 ≤ H) : 2 ≤ heightCap H := by
  unfold heightCap
  omega

theorem pyClamp_bounds (H : ℕ) (x : ℤ) (h : 2 ≤ heightCap H) :
    2 ≤ pyClamp H x ∧ pyClamp H x ≤ (heightCap H : ℤ) := by
  unfold pyClamp
  refine ⟨le_max_left _ _, max_le ?_ (min_le_left _ _)⟩
  exact_mod_cast h

/-- Claim C8: while animating, every bar after the first is its
predecessor's height plus the bounded random draw, clamped; the bound on
the draw is at most `max(5, amplitude * 20)`; every drawn bar height
lies between 2 and `int(height * 0.8)` (at most 80 percent of the
canvas height); when not animating every bar is drawn with height 2. -/
theorem draw_waveform_bars (a : ℚ) (H : ℕ) (rand : ℕ → ℤ)
    (ha : 0 ≤ a) (hH : 3 ≤ H)
    (hr : ∀ i, -(maxDiff a) ≤ rand i ∧ rand i ≤ maxDiff a) :
    (∀ i, drawnBarHeight false a H rand i = 2) ∧
    (∀ i, 2 ≤ drawnBarHeight true a H rand i ∧
      drawnBarHeight true a H rand i ≤ (heightCap H : ℤ)) ∧
    5 * heightCap H ≤ 4 * H ∧
    (∀ i, drawnBarHeight true a H rand (i + 1) =
        pyClamp H (drawnBarHeight true a H rand i + rand (i + 1)) ∧
      |rand (i + 1)| ≤ maxDiff a ∧
      ((maxDiff a : ℤ) : ℚ) ≤ max 5 (a * 20)) := by
  have hcap : 2 ≤ heightCap H := heightCap_ge_two H hH
  refine ⟨fun i => rfl, fun i => ?_, by unfold heightCap; omega,
    fun i => ⟨rfl, abs_le.mpr ⟨(hr (i + 1)).1, (hr (i + 1)).2⟩, maxDiff_le a ha⟩⟩
  cases i with
  | zero => exact pyClamp_bounds H _ hcap
  | succ n => exact pyClamp_bounds H _ hcap

theorem draw_waveform_bars_witness :
    (0 : ℚ) ≤ 0 ∧ 3 ≤ 150 ∧
    (∀ i, -(maxDiff 0) ≤ (fun _ : ℕ => (0 : ℤ)) i ∧
      (fun _ : ℕ => (0 : ℤ)) i ≤ maxDiff 0) ∧
    ((∀ i, drawnBarHeight false 0 150 (fun _ => 0) i = 2) ∧
    (∀ i, 2 ≤ drawnBarHeight true 0 150 (fun _ => 0) i ∧
      drawnBarHeight true 0 150 (fun _ => 0) i ≤ (heightCap 150 : ℤ)) ∧
    5 * heightCap 150 ≤ 4 * 150 ∧
    (∀ i, drawnBarHeight true 0 150 (fun _ => 0) (i + 1) =
        pyClamp 150 (drawnBarHeight true 0 150 (fun _ => 0) i + (fun _ : ℕ => (0 : ℤ)) (i + 1)) ∧
      |(fun _ : ℕ => (0 : ℤ)) (i + 1)| ≤ maxDiff 0 ∧
      ((maxDiff 0 : ℤ) : ℚ) ≤ max 5 ((0 : ℚ) * 20))) :=
  ⟨by decide, by decide,
    fun i => ⟨by show -maxDiff 0 ≤ 0; decide, by show (0 : ℤ) ≤ maxDiff 0; decide⟩,
    draw_waveform_bars 0 150 (fun _ => 0) (by decide) (by decide)
      (fun i => ⟨by show -maxDiff 0 ≤ 0; decide, by show (0 : ℤ) ≤ maxDiff 0; decide⟩)⟩

/-- Claim C9: stopping a session with no recorded chunks leaves the
state untouched: `_save_to_temp_file` returns without writing, so the
temporary file stays the empty file created at start, and the frames
list and temp-file path are unchanged. -/
theorem save_to_temp_file_empty_noop (st st0 : RecState) (tmp : String)
    (h : st.frames = []) :
    save_to_temp_file st = st ∧
    (runSession st0 tmp []).fs tmp = some FileData.emptyFile ∧
    (runSession st0 tmp []).frames = [] ∧
    (runSession st0 tmp []).temp_file = tmp := by
  refine ⟨by simp [save_to_temp_file, h], ?_, ?_, ?_⟩ <;>
    simp [runSession, save_to_temp_file]

theorem save_to_temp_file_empty_noop_witness :
    (⟨[], "/tmp/rec.wav", fun _ => none⟩ : RecState).frames = [] ∧
    (save_to_temp_file ⟨[], "/tmp/rec.wav", fun _ => none⟩ =
      (⟨[], "/tmp/rec.wav", fun _ => none⟩ : RecState) ∧
    (runSession ⟨[], "", fun _ => none⟩ "/tmp/rec.wav" []).fs "/tmp/rec.wav" =
      some FileData.emptyFile ∧
    (runSession ⟨[], "", fun _ => none⟩ "/tmp/rec.wav" []).frames = [] ∧
    (runSession ⟨[], "", fun _ => none⟩ "/tmp/rec.wav" []).temp_file = "/tmp/rec.wav") :=
  ⟨rfl, save_to_temp_file_empty_noop ⟨[], "/tmp/rec.wav", fun _ => none⟩
    ⟨[], "", fun _ => none⟩ "/tmp/rec.wav" rfl⟩

/-- Claim C10: `update_amplitude` stores `min(1.0, amplitude * 1.5)`,
so an amplitude in [0, 1] is stored in [0, 1], and any amplitude of at
least 2/3 saturates the stored value at exactly 1. -/
theorem update_amplitude_bounds (a b : ℚ) (ha0 : 0 ≤ a) (ha1 : a ≤ 1)
    (hb : mkRat 2 3 ≤ b) (hb1 : b ≤ 1) :
    0 ≤ update_amplitude a ∧ update_amplitude a ≤ 1 ∧ update_amplitude b = 1 := by
  have h23 : (mkRat 2 3 : ℚ) = 2 / 3 := by
    rw [Rat.mkRat_eq_div]
    norm_num
  refine ⟨?_, ?_, ?_⟩
  · unfold update_amplitude
    apply le_min
    · norm_num
    · positivity
  · exact min_le_left _ _
  · unfold update_amplitude
    rw [h23] at hb
    rw [min_eq_left]
    linarith

theorem update_amplitude_bounds_witness :
    (0 : ℚ) ≤ 0 ∧ (0 : ℚ) ≤ 1 ∧ mkRat 2 3 ≤ (1 : ℚ) ∧ (1 : ℚ) ≤ 1 ∧
    (0 ≤ update_amplitude 0 ∧ update_amplitude 0 ≤ 1 ∧ update_amplitude 1 = 1) :=
  ⟨by decide, by decide, by decide, by decide,
    update_amplitude_bounds 0 1 (by decide) (by decide) (by decide) (by decide)⟩

end VoiceRec
